import Mathlib

/-!
# A verification development for `src/api/db.go`

The Go program is a small HTTP service (fiber) over a PostgreSQL database with
two tables, `person (id, name, age)` and `role (username, password)`.

The five request handlers and the four CRUD functions are embedded one to one.
The collaborators that are libraries, not code of the repository, are modelled
explicitly and kept apart from the handlers:

* `encoding/json` decoding of a request body into a Go struct
  (`unmarshalUser`, `unmarshalLogin`), reached through fiber `BodyParser`;
* `strconv.Atoi`;
* the database behind `*sql.DB`: a state `DB` holding the two tables, the id
  sequence, the list of statements issued so far, and a script of driver
  faults, consumed one entry per statement, which makes every way a statement
  can fail an input of the model.

A Go result pair `(value, err)` is a Lean pair whose error component is an
`Option Error`, `none` standing for `nil`.
-/

namespace Handler

/-! ## Data model -/

/-- The Go struct `User` with JSON tags `id`, `name`, `age`. -/
structure User where
  ID : Int
  Name : String
  Age : Int
deriving DecidableEq, Repr

/-- The local struct `LoginRequest` of `loginHandler`. -/
structure LoginRequest where
  Username : String
  Password : String
deriving DecidableEq, Repr

/-- A Go slice, where the nil slice and an allocated slice are told apart:
`encoding/json` encodes the former as `null` and the latter as an array. -/
inductive Slice (α : Type) where
  | nil : Slice α
  | mk (elems : List α) : Slice α
deriving DecidableEq, Repr

/-- Go `append(s, x)`: appending to the nil slice allocates. -/
def Slice.append {α : Type} : Slice α → α → Slice α
  | .nil, x => .mk [x]
  | .mk l, x => .mk (l ++ [x])

/-- The elements of a slice; the nil slice has none. -/
def Slice.toList {α : Type} : Slice α → List α
  | .nil => []
  | .mk l => l

/-- JSON values. A number is either an integer literal (`int`) or a literal
with a fraction or an exponent (`float`), which Go never stores in an `int`. -/
inductive Json where
  | null : Json
  | bool (b : Bool) : Json
  | int (i : Int) : Json
  | float (lit : String) : Json
  | str (s : String) : Json
  | arr (items : List Json) : Json
  | obj (members : List (String × Json)) : Json

/-- Whether a JSON value is an array. -/
def Json.isArray : Json → Bool
  | .arr _ => true
  | _ => false

/-- Go `error` values the program can meet: `sql.ErrNoRows`, and any other
error reported by the driver or the server, with its message. -/
inductive Error where
  | ErrNoRows : Error
  | driver (msg : String) : Error
deriving DecidableEq, Repr

/-! ## Library model: integers, `strconv.Atoi`, JSON decoding -/

/-- Range of Go `int` on a 64-bit platform. -/
def inInt64 (i : Int) : Bool := decide (-(2 : Int) ^ 63 ≤ i) && decide (i < (2 : Int) ^ 63)

/-- Range of a PostgreSQL `integer` column. -/
def inInt4 (i : Int) : Bool := decide (-(2 : Int) ^ 31 ≤ i) && decide (i < (2 : Int) ^ 31)

/-- Value of a string of decimal digits. -/
def digitsValue (ds : List Char) : Nat :=
  ds.foldl (fun acc c => acc * 10 + (c.toNat - 48)) 0

/-- An optional sign followed by at least one decimal digit. -/
def signedDecimal (cs : List Char) : Option Int :=
  let parts : Bool × List Char :=
    match cs with
    | '-' :: rest => (true, rest)
    | '+' :: rest => (false, rest)
    | _ => (false, cs)
  if parts.2.isEmpty || !(parts.2.all Char.isDigit) then none
  else if parts.1 then some (-(digitsValue parts.2 : Int))
  else some (digitsValue parts.2 : Int)

/-- Go `strconv.Atoi`: base 10, optional sign, digits only, result in the range
of `int`; `none` stands for a non-nil error (malformed text or out of range). -/
def Atoi (s : String) : Option Int :=
  match signedDecimal s.data with
  | none => none
  | some v => if inInt64 v then some v else none

/-- Code point of the case-folded character, as `encoding/json` folds object
keys before matching them with field names: ASCII letters fold to upper case,
and the long s and the Kelvin sign fold to `S` and `K`. -/
def foldRune (c : Char) : Nat :=
  if 97 ≤ c.toNat ∧ c.toNat ≤ 122 then c.toNat - 32
  else if c.toNat = 0x17F then 83
  else if c.toNat = 0x212A then 75
  else c.toNat

/-- Case-insensitive match of an object key with a field name. -/
def equalFold (key field : String) : Bool :=
  key.data.map foldRune == field.data.map foldRune

/-- Storing a JSON value in an `int` field. `null` leaves the field as it is;
anything but an integer literal in range is an `UnmarshalTypeError`. -/
def decodeInt (v : Json) (cur : Int) : Option Int :=
  match v with
  | .null => some cur
  | .int i => if inInt64 i then some i else none
  | _ => none

/-- Storing a JSON value in a `string` field. -/
def decodeString (v : Json) (cur : String) : Option String :=
  match v with
  | .null => some cur
  | .str s => some s
  | _ => none

/-- One object member stored in a `User`; a key matching no field is skipped. -/
def setUserField (u : User) (key : String) (v : Json) : Option User :=
  if equalFold key "id" then (decodeInt v u.ID).map fun i => { u with ID := i }
  else if equalFold key "name" then (decodeString v u.Name).map fun s => { u with Name := s }
  else if equalFold key "age" then (decodeInt v u.Age).map fun i => { u with Age := i }
  else some u

/-- The members of an object stored in order in a `User`. `none` stands for
the non-nil error `json.Unmarshal` returns when some member has the wrong
type; a field no member names keeps its value. -/
def decodeUserMembers : List (String × Json) → User → Option User
  | [], u => some u
  | (k, v) :: ms, u =>
    match setUserField u k v with
    | none => none
    | some u' => decodeUserMembers ms u'

/-- Go `json.Unmarshal(data, &user)` on syntactically valid JSON. -/
def unmarshalUser (v : Json) (u : User) : Option User :=
  match v with
  | .null => some u
  | .obj ms => decodeUserMembers ms u
  | _ => none

/-- One object member stored in a `LoginRequest`. -/
def setLoginField (r : LoginRequest) (key : String) (v : Json) : Option LoginRequest :=
  if equalFold key "username" then
    (decodeString v r.Username).map fun s => { r with Username := s }
  else if equalFold key "password" then
    (decodeString v r.Password).map fun s => { r with Password := s }
  else some r

/-- The members of an object stored in order in a `LoginRequest`. -/
def decodeLoginMembers : List (String × Json) → LoginRequest → Option LoginRequest
  | [], r => some r
  | (k, v) :: ms, r =>
    match setLoginField r k v with
    | none => none
    | some r' => decodeLoginMembers ms r'

/-- Go `json.Unmarshal(data, &req)` on syntactically valid JSON. -/
def unmarshalLogin (v : Json) (r : LoginRequest) : Option LoginRequest :=
  match v with
  | .null => some r
  | .obj ms => decodeLoginMembers ms r
  | _ => none

/-- Whether a JSON value can be stored in an `int` field. -/
def Json.fitsInt : Json → Bool
  | .null => true
  | .int i => inInt64 i
  | _ => false

/-- Whether a JSON value can be stored in a `string` field. -/
def Json.fitsString : Json → Bool
  | .null => true
  | .str _ => true
  | _ => false

/-- Whether an object member names a field of `User` and carries a value of the
wrong type for it. -/
def wrongTypeForUser (m : String × Json) : Bool :=
  if equalFold m.1 "id" then !m.2.fitsInt
  else if equalFold m.1 "name" then !m.2.fitsString
  else if equalFold m.1 "age" then !m.2.fitsInt
  else false

/-! ## Requests and responses -/

/-- A request body as fiber `BodyParser` sees it: a JSON document (content type
`application/json`, well-formed text), or bytes it cannot parse at all. -/
inductive ReqBody where
  | json (v : Json) : ReqBody
  | undecodable : ReqBody

/-- The part of a fiber context the handlers read: the `:id` route parameter
(`c.Params("id")`) and the body. -/
structure Request where
  id : String
  body : ReqBody

/-- The response as sent: status code and body (`none` is the empty body). -/
structure Response where
  status : Nat
  body : Option Json

def StatusOK : Nat := 200
def StatusNoContent : Nat := 204
def StatusBadRequest : Nat := 400
def StatusUnauthorized : Nat := 401
def StatusInternalServerError : Nat := 500

/-- Encoding of `fiber.Map` with the single key `error`. -/
def errorJSON (msg : String) : Json := .obj [("error", .str msg)]

/-- Encoding of a `User` under its JSON tags. -/
def userJSON (u : User) : Json :=
  .obj [("id", .int u.ID), ("name", .str u.Name), ("age", .int u.Age)]

/-- Encoding of a `[]User`: the nil slice is `null`. -/
def usersJSON : Slice User → Json
  | .nil => .null
  | .mk l => .arr (l.map userJSON)

/-- Go `c.Status(code).JSON(fiber.Map(error: msg))`. -/
def statusJSON (code : Nat) (msg : String) : Response := ⟨code, some (errorJSON msg)⟩

/-- Go `c.JSON(v)`: the status stays at its default, 200. -/
def sendJSON (v : Json) : Response := ⟨StatusOK, some v⟩

/-- Go `c.SendStatus(code)` for a code whose response carries no body. -/
def SendStatus (code : Nat) : Response := ⟨code, none⟩

/-- Go `c.BodyParser(&user)` with `user` the zero `User`. -/
def BodyParserUser (b : ReqBody) : Option User :=
  match b with
  | .json v => unmarshalUser v ⟨0, "", 0⟩
  | .undecodable => none

/-- Go `c.BodyParser(&req)` with `req` the zero `LoginRequest`. -/
def BodyParserLogin (b : ReqBody) : Option LoginRequest :=
  match b with
  | .json v => unmarshalLogin v ⟨"", ""⟩
  | .undecodable => none

/-! ## The database behind `*sql.DB` -/

/-- The five SQL statements of the program, with their bound arguments. -/
inductive Stmt where
  /-- Statement `SELECT id, name, age FROM person`. -/
  | selectPerson : Stmt
  /-- Statement `INSERT INTO person (name, age) VALUES ($1, $2) RETURNING id`. -/
  | insertPerson (name : String) (age : Int) : Stmt
  /-- Statement `UPDATE person SET name=$1, age=$2 WHERE id=$3`. -/
  | updatePerson (name : String) (age : Int) (id : Int) : Stmt
  /-- Statement `DELETE FROM person WHERE id=$1`, the argument bound as text. -/
  | deletePerson (id : String) : Stmt
  /-- Statement `SELECT username, password FROM role WHERE username = $1 AND password = $2`. -/
  | selectRole (username password : String) : Stmt
deriving DecidableEq, Repr

/-- Whether a statement is the person listing. -/
def Stmt.isListing : Stmt → Bool
  | .selectPerson => true
  | _ => false

/-- A failure the driver or the server injects into one statement.
`stmt`: the call itself fails (connection lost, statement rejected).
`scan k`: `rows.Scan` fails on row `k` of a result set.
`next k`: `rows.Next` reports false after `k` rows because of an error, which
only `rows.Err` would reveal. -/
inductive Fault where
  | stmt (msg : String) : Fault
  | scan (k : Nat) (msg : String) : Fault
  | next (k : Nat) (msg : String) : Fault
deriving DecidableEq, Repr

/-- The message of a fault. -/
def Fault.msg : Fault → String
  | .stmt m => m
  | .scan _ m => m
  | .next _ m => m

/-- Modelled from the spec: the persisted state the program runs against, which
the repository does not declare. A table `person` whose `id` is an integer
primary key generated by storage (a sequence, `seq` being its next value), with
`name` text and `age` integer, and a table `role` of plaintext username and
password pairs. `faults` scripts the failures of the coming statements, one
entry per statement (`none`, or no entry left: no failure); `log` lists the
statements issued so far. -/
structure DB where
  person : List User
  role : List (String × String)
  seq : Int
  faults : List (Option Fault)
  log : List Stmt

/-- The fault, if any, that the next statement will meet. -/
def DB.nextFault (db : DB) : Option Fault :=
  match db.faults with
  | [] => none
  | x :: _ => x

/-- Issuing a statement: it is logged and takes the next entry of the fault
script. -/
def DB.issue (db : DB) (s : Stmt) : Option Fault × DB :=
  (db.nextFault, { db with faults := db.faults.tail, log := db.log ++ [s] })

/-- The rows a result set delivers, each with the outcome of its `Scan`, when
`Scan` fails on row `k`. -/
def scanAt : Nat → String → List User → List (Except Error User)
  | _, _, [] => []
  | 0, msg, _ :: us => .error (.driver msg) :: us.map .ok
  | k + 1, msg, u :: us => .ok u :: scanAt k msg us

/-- The rows a result set delivers under a fault. -/
def deliver (rows : List User) : Option Fault → List (Except Error User)
  | some (.scan k msg) => scanAt k msg rows
  | some (.next k _) => (rows.take k).map .ok
  | _ => rows.map .ok

/-- Go `db.Query("SELECT id, name, age FROM person")`: an error, or the result
set, in table order. -/
def DB.Query (db : DB) : (List (Except Error User) × Option Error) × DB :=
  match db.issue .selectPerson with
  | (some (.stmt msg), db1) => (([], some (.driver msg)), db1)
  | (f, db1) => ((deliver db.person f, none), db1)

/-- Go `db.QueryRow(INSERT ... RETURNING id, name, age).Scan(&id)`: the id
comes from the sequence, which advances whether or not the row is stored; the
row is refused when the id or the age is outside `integer`, or the id is
already a primary key. A refused or failed statement stores nothing. -/
def DB.QueryRowInsert (db : DB) (name : String) (age : Int) : (Int × Option Error) × DB :=
  match db.issue (.insertPerson name age) with
  | (some f, db1) => ((0, some (.driver f.msg)), db1)
  | (none, db1) =>
    let id := db1.seq
    let db2 : DB := { db1 with seq := db1.seq + 1 }
    if !(inInt4 age) || !(inInt4 id) then
      ((0, some (.driver "integer out of range")), db2)
    else if db2.person.any (fun u => decide (u.ID = id)) then
      ((0, some (.driver "duplicate key value violates unique constraint")), db2)
    else ((id, none), { db2 with person := db2.person ++ [⟨id, name, age⟩] })

/-- Go `db.Exec(UPDATE ..., name, age, id)`: every row with that id takes the
new name and age; matching no row is not an error. -/
def DB.ExecUpdate (db : DB) (name : String) (age : Int) (id : Int) : Option Error × DB :=
  match db.issue (.updatePerson name age id) with
  | (some f, db1) => (some (.driver f.msg), db1)
  | (none, db1) =>
    if !(inInt4 age) || !(inInt4 id) then (some (.driver "integer out of range"), db1)
    else
      (none, { db1 with
        person := db1.person.map fun u => if u.ID = id then ⟨u.ID, name, age⟩ else u })

/-- The server reading a text argument as an `integer`: a signed decimal
literal in range. -/
def integerIn (s : String) : Option Int :=
  match signedDecimal s.data with
  | none => none
  | some v => if inInt4 v then some v else none

/-- Go `db.Exec(DELETE ..., id)` with `id` a Go string: the server reads the
text as an integer, refuses the statement when it is not one, and deletes the
rows with that id; matching no row is not an error. -/
def DB.ExecDelete (db : DB) (id : String) : Option Error × DB :=
  match db.issue (.deletePerson id) with
  | (some f, db1) => (some (.driver f.msg), db1)
  | (none, db1) =>
    match integerIn id with
    | none => (some (.driver "invalid input for type integer"), db1)
    | some n => (none, { db1 with person := db1.person.filter fun u => decide (u.ID ≠ n) })

/-- Go `db.QueryRow(SELECT ... FROM role ..., username, password).Scan(...)`:
`sql.ErrNoRows` when no row has both values, the driver error when the
statement fails. The two scanned columns are not used by the caller. -/
def DB.QueryRowRole (db : DB) (username password : String) : Option Error × DB :=
  match db.issue (.selectRole username password) with
  | (some f, db1) => (some (.driver f.msg), db1)
  | (none, db1) =>
    if db1.role.any (fun r => decide (r.1 = username) && decide (r.2 = password)) then
      (none, db1)
    else (some .ErrNoRows, db1)

/-- A storage read of the person stored under an id. -/
def DB.find (db : DB) (id : Int) : Option User :=
  db.person.find? fun u => decide (u.ID = id)

/-! ## CRUD functions -/

/-- The loop `for rows.Next()` of `getUsers`: each row is scanned and appended;
a failing `Scan` returns `nil, err` at once. -/
def scanRows : List (Except Error User) → Slice User → Slice User × Option Error
  | [], users => (users, none)
  | .error e :: _, _ => (.nil, some e)
  | .ok user :: rest, users => scanRows rest (users.append user)

/-- Go `getUsers`. -/
def getUsers (db : DB) : (Slice User × Option Error) × DB :=
  match db.Query with
  | ((_, some err), db1) => ((.nil, some err), db1)
  | ((rows, none), db1) => (scanRows rows .nil, db1)

/-- Go `createUser`. -/
def createUser (db : DB) (name : String) (age : Int) : (Int × Option Error) × DB :=
  db.QueryRowInsert name age

/-- Go `updateUser`. -/
def updateUser (db : DB) (user : User) : Option Error × DB :=
  db.ExecUpdate user.Name user.Age user.ID

/-- Go `deleteUser`. -/
def deleteUser (db : DB) (id : String) : Option Error × DB :=
  db.ExecDelete id

/-! ## Handlers -/

/-- Go `getUsersHandler`. -/
def getUsersHandler (db : DB) (_c : Request) : Response × DB :=
  match getUsers db with
  | ((_, some _), db1) => (statusJSON StatusInternalServerError "Could not get users", db1)
  | ((users, none), db1) => (sendJSON (usersJSON users), db1)

/-- Go `createUserHandler`. -/
def createUserHandler (db : DB) (c : Request) : Response × DB :=
  match BodyParserUser c.body with
  | none => (statusJSON StatusBadRequest "Invalid request", db)
  | some user =>
    match createUser db user.Name user.Age with
    | ((_, some _), db1) =>
      (statusJSON StatusInternalServerError "Could not create user", db1)
    | ((id, none), db1) => (sendJSON (userJSON { user with ID := id }), db1)

/-- Go `updateUserHandler`. -/
def updateUserHandler (db : DB) (c : Request) : Response × DB :=
  match Atoi c.id with
  | none => (statusJSON StatusBadRequest "Invalid user ID", db)
  | some id =>
    match BodyParserUser c.body with
    | none => (statusJSON StatusBadRequest "Invalid request", db)
    | some parsed =>
      let user : User := { parsed with ID := id }
      match updateUser db user with
      | (some _, db1) => (statusJSON StatusInternalServerError "Could not update user", db1)
      | (none, db1) => (sendJSON (userJSON user), db1)

/-- Go `deleteUserHandler`. -/
def deleteUserHandler (db : DB) (c : Request) : Response × DB :=
  match deleteUser db c.id with
  | (some _, db1) => (statusJSON StatusInternalServerError "Could not delete user", db1)
  | (none, db1) => (SendStatus StatusNoContent, db1)

/-- Go `loginHandler`. -/
def loginHandler (db : DB) (c : Request) : Response × DB :=
  match BodyParserLogin c.body with
  | none => (statusJSON StatusBadRequest "Invalid request", db)
  | some req =>
    match db.QueryRowRole req.Username req.Password with
    | (some _, db1) => (statusJSON StatusUnauthorized "Invalid username or password", db1)
    | (none, db1) =>
      match getUsers db1 with
      | ((_, some _), db2) =>
        (statusJSON StatusInternalServerError "Could not get users", db2)
      | ((users, none), db2) => (sendJSON (usersJSON users), db2)

/-- The statements a handler run issued: what it added to the log. -/
def issued (before after : DB) : List Stmt := after.log.drop before.log.length

/-! ## Sample states and requests -/

/-- A state with no person, one credential and no scripted fault. -/
def emptyStore : DB := ⟨[], [("admin", "secret")], 1, [], []⟩

/-- A state with two persons, one credential and no scripted fault. -/
def twoPersons : DB := ⟨[⟨1, "Ada", 30⟩, ⟨2, "Bob", 5⟩], [("admin", "secret")], 3, [], []⟩

/-- The state `twoPersons` when the next statement fails in the driver. -/
def twoPersonsDown : DB := { twoPersons with faults := [some (.stmt "connection refused")] }

/-- The state `twoPersons` when the first statement to come meets no fault and
the second, if it is a person listing, is cut short after `k` rows by an error
that only `rows.Err` would show. -/
def listingCutAfter (k : Nat) : DB :=
  { twoPersons with faults := [none, some (.next k "connection reset")] }

/-- A login body with the given username and password. -/
def loginBody (u p : String) : ReqBody :=
  .json (.obj [("username", .str u), ("password", .str p)])

/-- A person body with the given name and age. -/
def personBody (name : String) (age : Int) : ReqBody :=
  .json (.obj [("name", .str name), ("age", .int age)])

/-! ## Basic facts about the database primitives -/

theorem issued_append (db db' : DB) (l : List Stmt) (h : db'.log = db.log ++ l) :
    issued db db' = l := by
  simp [issued, h]

theorem issued_self (db : DB) : issued db db = [] := by
  simp [issued]

/-- The credential lookup logs its statement and nothing else, and leaves both
tables as they are. -/
theorem QueryRowRole_frame (db : DB) (u p : String) :
    (db.QueryRowRole u p).2.log = db.log ++ [.selectRole u p]
    ∧ (db.QueryRowRole u p).2.person = db.person
    ∧ (db.QueryRowRole u p).2.role = db.role
    ∧ (db.QueryRowRole u p).2.faults = db.faults.tail := by
  unfold DB.QueryRowRole
  cases hf : db.nextFault
  · simp only [DB.issue, hf]
    split <;> simp
  · simp [DB.issue, hf]

/-- The credential lookup reports no error exactly when the driver does not
fail and the role table holds the pair. -/
theorem QueryRowRole_found_iff (db : DB) (u p : String) :
    (db.QueryRowRole u p).1 = none ↔ db.nextFault = none ∧ (u, p) ∈ db.role := by
  unfold DB.QueryRowRole
  cases hf : db.nextFault with
  | some f => simp [DB.issue, hf]
  | none =>
    simp only [DB.issue, hf, true_and]
    split
    · rename_i h
      simp only [List.any_eq_true, Bool.and_eq_true, decide_eq_true_eq] at h
      obtain ⟨⟨a, b⟩, hmem, ha, hb⟩ := h
      simp only at ha hb
      subst ha hb
      simp [hmem]
    · rename_i h
      simp only [List.any_eq_true, Bool.and_eq_true, decide_eq_true_eq, not_exists, not_and] at h
      simp only [reduceCtorEq, false_iff]
      intro hmem
      exact h (u, p) hmem rfl rfl

/-- The listing logs its statement and nothing else, and leaves both tables as
they are. -/
theorem getUsers_frame (db : DB) :
    (getUsers db).2.log = db.log ++ [.selectPerson]
    ∧ (getUsers db).2.person = db.person
    ∧ (getUsers db).2.role = db.role
    ∧ (getUsers db).2.faults = db.faults.tail := by
  unfold getUsers DB.Query
  cases hf : db.nextFault with
  | none => simp [DB.issue, hf]
  | some f => cases f <;> simp [DB.issue, hf]

/-! ## C1: login with unknown credentials -/

/-- C1. For every state of the database (whatever its fault script) and every
`POST /login` request whose body decodes to a username and password that no row
of the role table holds, `loginHandler` answers 401 with the body
`error: Invalid username or password`; the only statement it issues is the
credential lookup, so the person listing of `getUsers` is never issued, and
both tables are left as they were. -/
theorem login_unknown_credentials (db : DB) (c : Request) (req : LoginRequest)
    (hdecode : BodyParserLogin c.body = some req)
    (hnorow : (req.Username, req.Password) ∉ db.role) :
    (loginHandler db c).1.status = 401
    ∧ (loginHandler db c).1.body
        = some (Json.obj [("error", Json.str "Invalid username or password")])
    ∧ issued db (loginHandler db c).2 = [Stmt.selectRole req.Username req.Password]
    ∧ (∀ s ∈ issued db (loginHandler db c).2, s.isListing = false)
    ∧ (loginHandler db c).2.person = db.person
    ∧ (loginHandler db c).2.role = db.role := by
  have hlookup : (db.QueryRowRole req.Username req.Password).1 ≠ none := by
    intro h
    exact hnorow ((QueryRowRole_found_iff db _ _).1 h).2
  obtain ⟨hlog, hperson, hrole, -⟩ := QueryRowRole_frame db req.Username req.Password
  have hrun : loginHandler db c
      = (statusJSON StatusUnauthorized "Invalid username or password",
          (db.QueryRowRole req.Username req.Password).2) := by
    unfold loginHandler
    rw [hdecode]
    simp only
    cases hq : db.QueryRowRole req.Username req.Password with
    | mk err db1 =>
      cases err with
      | none => rw [hq] at hlookup; exact absurd rfl hlookup
      | some e => rfl
  rw [hrun]
  have hiss := issued_append db _ _ hlog
  refine ⟨rfl, rfl, hiss, ?_, hperson, hrole⟩
  intro s hs
  simp only at hs
  rw [hiss] at hs
  simp only [List.mem_singleton] at hs
  subst hs
  rfl

/-- C1 at a concrete input: the pair `admin`, `wrong` is in no row of the role
table of `twoPersons`. -/
theorem login_unknown_credentials_witness :
    (loginHandler twoPersons ⟨"", loginBody "admin" "wrong"⟩).1.status = 401
    ∧ (loginHandler twoPersons ⟨"", loginBody "admin" "wrong"⟩).1.body
        = some (Json.obj [("error", Json.str "Invalid username or password")])
    ∧ issued twoPersons (loginHandler twoPersons ⟨"", loginBody "admin" "wrong"⟩).2
        = [Stmt.selectRole "admin" "wrong"]
    ∧ (∀ s ∈ issued twoPersons (loginHandler twoPersons ⟨"", loginBody "admin" "wrong"⟩).2,
        s.isListing = false)
    ∧ (loginHandler twoPersons ⟨"", loginBody "admin" "wrong"⟩).2.person = twoPersons.person
    ∧ (loginHandler twoPersons ⟨"", loginBody "admin" "wrong"⟩).2.role = twoPersons.role :=
  login_unknown_credentials twoPersons ⟨"", loginBody "admin" "wrong"⟩ ⟨"admin", "wrong"⟩
    (by decide) (by decide)

/-! ## C7: the `:id` path segment of `PUT /users/:id` -/

/-- C7. For every `PUT /users/:id` request: when `strconv.Atoi` fails on the
`:id` segment, `updateUserHandler` answers 400 with the body
`error: Invalid user ID`, whatever the body of the request is (the whole result
is the same for every body), and issues no statement, the database being left
exactly as it was; when `strconv.Atoi` succeeds, the answer never carries the
body `error: Invalid user ID`. -/
theorem update_invalid_id (db : DB) (c : Request) :
    (Atoi c.id = none →
      (updateUserHandler db c).1.status = 400
      ∧ (updateUserHandler db c).1.body = some (Json.obj [("error", Json.str "Invalid user ID")])
      ∧ (updateUserHandler db c).2 = db
      ∧ issued db (updateUserHandler db c).2 = []
      ∧ ∀ b : ReqBody, updateUserHandler db ⟨c.id, b⟩ = updateUserHandler db c)
    ∧ (Atoi c.id ≠ none →
      (updateUserHandler db c).1.body
        ≠ some (Json.obj [("error", Json.str "Invalid user ID")])) := by
  constructor
  · intro hid
    have hrun : ∀ b : ReqBody, updateUserHandler db ⟨c.id, b⟩
        = (statusJSON StatusBadRequest "Invalid user ID", db) := by
      intro b
      unfold updateUserHandler
      simp only [hid]
    have hc : updateUserHandler db c = (statusJSON StatusBadRequest "Invalid user ID", db) :=
      hrun c.body
    rw [hc]
    refine ⟨rfl, rfl, rfl, issued_self db, ?_⟩
    intro b
    exact hrun b
  · intro hid
    unfold updateUserHandler
    cases hA : Atoi c.id with
    | none => exact absurd hA hid
    | some id =>
      simp only
      cases hB : BodyParserUser c.body with
      | none => simp [statusJSON, errorJSON]
      | some parsed =>
        simp only
        cases hU : updateUser db { parsed with ID := id } with
        | mk err db1 =>
          cases err with
          | none => simp [sendJSON, userJSON]
          | some e => simp [statusJSON, errorJSON]

/-- C7 at concrete inputs: the ids `12a`, the empty string and
`9223372036854775808` are refused whatever the body, the id `2` is not. -/
theorem update_invalid_id_witness :
    ((updateUserHandler twoPersons ⟨"12a", personBody "Eve" 7⟩).1.status = 400
      ∧ (updateUserHandler twoPersons ⟨"12a", personBody "Eve" 7⟩).1.body
          = some (Json.obj [("error", Json.str "Invalid user ID")])
      ∧ (updateUserHandler twoPersons ⟨"12a", personBody "Eve" 7⟩).2 = twoPersons
      ∧ issued twoPersons (updateUserHandler twoPersons ⟨"12a", personBody "Eve" 7⟩).2 = []
      ∧ ∀ b : ReqBody, updateUserHandler twoPersons ⟨"12a", b⟩
          = updateUserHandler twoPersons ⟨"12a", personBody "Eve" 7⟩)
    ∧ (updateUserHandler twoPersons ⟨"", ReqBody.undecodable⟩).1.status = 400
    ∧ (updateUserHandler twoPersons ⟨"9223372036854775808", personBody "Eve" 7⟩).1.status = 400
    ∧ (updateUserHandler twoPersons ⟨"2", ReqBody.undecodable⟩).1.body
        ≠ some (Json.obj [("error", Json.str "Invalid user ID")]) :=
  ⟨(update_invalid_id twoPersons ⟨"12a", personBody "Eve" 7⟩).1 (by decide),
   ((update_invalid_id twoPersons ⟨"", ReqBody.undecodable⟩).1 (by decide)).1,
   ((update_invalid_id twoPersons ⟨"9223372036854775808", personBody "Eve" 7⟩).1
      (by decide)).1,
   (update_invalid_id twoPersons ⟨"2", ReqBody.undecodable⟩).2 (by decide)⟩

/-! ## Statements issued by the CRUD functions -/

theorem createUser_log (db : DB) (name : String) (age : Int) :
    (createUser db name age).2.log = db.log ++ [.insertPerson name age] := by
  unfold createUser DB.QueryRowInsert
  cases hf : db.nextFault with
  | some f => simp [DB.issue, hf]
  | none =>
    simp only [DB.issue, hf]
    split
    · rfl
    · split <;> rfl

theorem updateUser_log (db : DB) (user : User) :
    (updateUser db user).2.log = db.log ++ [.updatePerson user.Name user.Age user.ID] := by
  unfold updateUser DB.ExecUpdate
  cases hf : db.nextFault with
  | some f => simp [DB.issue, hf]
  | none =>
    simp only [DB.issue, hf]
    split <;> rfl

theorem deleteUser_log (db : DB) (id : String) :
    (deleteUser db id).2.log = db.log ++ [.deletePerson id] := by
  unfold deleteUser DB.ExecDelete
  cases hf : db.nextFault with
  | some f => simp [DB.issue, hf]
  | none =>
    simp only [DB.issue, hf]
    split <;> rfl

/-! ## C10: statements issued per request -/

/-- C10, refuted as stated. A `POST /users` request with an undecodable body
and a `PUT /users/:id` request with an unparseable id issue no statement at
all, and a `POST /login` request with unknown credentials issues the credential
lookup alone, with no listing after it. -/
theorem statements_per_request_counterexample :
    issued twoPersons (createUserHandler twoPersons ⟨"", ReqBody.undecodable⟩).2 = []
    ∧ issued twoPersons (updateUserHandler twoPersons ⟨"x", personBody "Eve" 7⟩).2 = []
    ∧ issued twoPersons (loginHandler twoPersons ⟨"", loginBody "admin" "wrong"⟩).2
        = [Stmt.selectRole "admin" "wrong"] := by
  refine ⟨?_, ?_, ?_⟩ <;> decide

/-- C10, amended. For every state and request: `GET /users` issues exactly the
person listing and `DELETE /users/:id` exactly the delete; `POST /users` issues
exactly the insert when its body decodes and nothing otherwise;
`PUT /users/:id` issues exactly the update when the id parses and the body
decodes and nothing otherwise; `POST /login` issues nothing when its body does
not decode, the credential lookup alone when the lookup reports an error, and
the credential lookup followed by the person listing when it finds a row. -/
theorem statements_per_request (db : DB) (c : Request) :
    issued db (getUsersHandler db c).2 = [Stmt.selectPerson]
    ∧ issued db (deleteUserHandler db c).2 = [Stmt.deletePerson c.id]
    ∧ issued db (createUserHandler db c).2
        = (match BodyParserUser c.body with
          | none => []
          | some user => [Stmt.insertPerson user.Name user.Age])
    ∧ issued db (updateUserHandler db c).2
        = (match Atoi c.id, BodyParserUser c.body with
          | some id, some user => [Stmt.updatePerson user.Name user.Age id]
          | _, _ => [])
    ∧ issued db (loginHandler db c).2
        = (match BodyParserLogin c.body with
          | none => []
          | some req =>
            if (db.QueryRowRole req.Username req.Password).1 = none then
              [Stmt.selectRole req.Username req.Password, Stmt.selectPerson]
            else [Stmt.selectRole req.Username req.Password]) := by
  refine ⟨?_, ?_, ?_, ?_, ?_⟩
  · apply issued_append
    have h := (getUsers_frame db).1
    unfold getUsersHandler
    cases hg : getUsers db with
    | mk res db1 =>
      obtain ⟨users, err⟩ := res
      rw [hg] at h
      cases err <;> exact h
  · apply issued_append
    have h := deleteUser_log db c.id
    unfold deleteUserHandler
    cases hd : deleteUser db c.id with
    | mk err db1 =>
      rw [hd] at h
      cases err <;> exact h
  · unfold createUserHandler
    cases hB : BodyParserUser c.body with
    | none => exact issued_self db
    | some user =>
      apply issued_append
      have h := createUser_log db user.Name user.Age
      simp only
      cases hc : createUser db user.Name user.Age with
      | mk res db1 =>
        obtain ⟨id, err⟩ := res
        rw [hc] at h
        cases err <;> exact h
  · unfold updateUserHandler
    cases hA : Atoi c.id with
    | none => exact issued_self db
    | some id =>
      cases hB : BodyParserUser c.body with
      | none => exact issued_self db
      | some parsed =>
        apply issued_append
        have h := updateUser_log db { parsed with ID := id }
        simp only
        cases hu : updateUser db { parsed with ID := id } with
        | mk err db1 =>
          rw [hu] at h
          cases err <;> exact h
  · unfold loginHandler
    cases hB : BodyParserLogin c.body with
    | none => exact issued_self db
    | some req =>
      apply issued_append
      obtain ⟨hlog, -, -, -⟩ := QueryRowRole_frame db req.Username req.Password
      simp only
      cases hq : db.QueryRowRole req.Username req.Password with
      | mk err db1 =>
        rw [hq] at hlog
        cases err with
        | some e => simpa using hlog
        | none =>
          have h := (getUsers_frame db1).1
          simp only at hlog
          simp only [if_true]
          cases hg : getUsers db1 with
          | mk res db2 =>
            obtain ⟨users, err⟩ := res
            rw [hg] at h
            simp only at h
            cases err <;> simp [h, hlog]

/-! ## The loop of `getUsers` -/

theorem scanRows_ok (us : List User) (acc : Slice User) :
    scanRows (us.map Except.ok) acc = (us.foldl Slice.append acc, none) := by
  induction us generalizing acc with
  | nil => rfl
  | cons u us ih => simp [scanRows, ih]

theorem scanRows_error (pre : List User) (e : Error) (rest : List (Except Error User))
    (acc : Slice User) :
    scanRows (pre.map Except.ok ++ Except.error e :: rest) acc = (Slice.nil, some e) := by
  induction pre generalizing acc with
  | nil => simp [scanRows]
  | cons u us ih => simp [scanRows, ih]

theorem foldl_append_mk (us l : List User) :
    us.foldl Slice.append (Slice.mk l) = Slice.mk (l ++ us) := by
  induction us generalizing l with
  | nil => simp
  | cons u us ih => simp [Slice.append, ih]

/-- The slice the loop builds from rows that all scan: nil for no row, the rows
in order otherwise. -/
theorem foldl_append_nil (us : List User) :
    us.foldl Slice.append Slice.nil = (match us with | [] => Slice.nil | _ :: _ => Slice.mk us) := by
  cases us with
  | nil => rfl
  | cons u us => simp [Slice.append, foldl_append_mk]

theorem foldl_append_toList (us : List User) :
    (us.foldl Slice.append Slice.nil).toList = us := by
  rw [foldl_append_nil]
  cases us <;> rfl

/-- When no fault meets it, the listing reports no error and returns the whole
person table in table order. -/
theorem getUsers_no_fault (db : DB) (h : db.nextFault = none) :
    (getUsers db).1 = (db.person.foldl Slice.append Slice.nil, none) := by
  unfold getUsers DB.Query
  simp [DB.issue, h, deliver, scanRows_ok]

/-- The listing depends on the person table and on the fault it meets, and on
nothing else in the state. -/
theorem getUsers_congr (db db' : DB) (hp : db'.person = db.person)
    (hf : db'.nextFault = db.nextFault) : (getUsers db').1 = (getUsers db).1 := by
  unfold getUsers DB.Query
  simp only [DB.issue, hp, hf]
  cases db.nextFault with
  | none => rfl
  | some f => cases f <;> rfl

/-! ## C5: `GET /users` -/

/-- C5, the code at the failing input. With an empty person table and a query
that succeeds, `getUsers` returns the nil slice it declared and never appended
to, so `GET /users` answers 200 with the body `null`, which is not a JSON
array. -/
theorem getUsers_empty_table_null :
    (getUsers emptyStore).1 = (Slice.nil, none)
    ∧ (getUsersHandler emptyStore ⟨"", ReqBody.undecodable⟩).1.status = 200
    ∧ (getUsersHandler emptyStore ⟨"", ReqBody.undecodable⟩).1.body = some Json.null
    ∧ Json.isArray Json.null = false := by
  refine ⟨?_, ?_, ?_, ?_⟩ <;> rfl

/-- The rest of C5 holds: when the query succeeds and every row scans, a
result of at least one row is answered with 200 and the array of the rows in
the order the query delivered them; when the query fails, or the scan of a row
fails, the answer is 500 with `error: Could not get users` and no list. -/
theorem getUsersHandler_listing (db : DB) (c : Request) :
    (∀ (u : User) (us : List User) (db1 : DB),
      db.Query = (((u :: us).map Except.ok, none), db1) →
      (getUsersHandler db c).1 = ⟨200, some (Json.arr ((u :: us).map userJSON))⟩)
    ∧ (∀ (rows : List (Except Error User)) (e : Error) (db1 : DB),
      db.Query = ((rows, some e), db1) →
      (getUsersHandler db c).1
        = ⟨500, some (Json.obj [("error", Json.str "Could not get users")])⟩)
    ∧ (∀ (pre : List User) (e : Error) (rest : List (Except Error User)) (db1 : DB),
      db.Query = ((pre.map Except.ok ++ Except.error e :: rest, none), db1) →
      (getUsersHandler db c).1
        = ⟨500, some (Json.obj [("error", Json.str "Could not get users")])⟩) := by
  refine ⟨?_, ?_, ?_⟩
  · intro u us db1 hq
    unfold getUsersHandler getUsers
    rw [hq]
    simp only [scanRows_ok, foldl_append_nil]
    rfl
  · intro rows e db1 hq
    unfold getUsersHandler getUsers
    rw [hq]
    rfl
  · intro pre e rest db1 hq
    unfold getUsersHandler getUsers
    rw [hq]
    simp only [scanRows_error]
    rfl

/-! ## C2: database failures -/

/-- C2, the code at the failing input. The credential lookup of a
`POST /login` request fails in the driver (error `connection refused`, not
`sql.ErrNoRows`), for a pair the role table holds: the answer is 401
`Invalid username or password`, not 500. And a person listing cut short by an
error that only `rows.Err` would show is answered 200 with the rows read so
far. -/
theorem login_lookup_failure_unauthorized :
    (twoPersonsDown.QueryRowRole "admin" "secret").1 = some (Error.driver "connection refused")
    ∧ (loginHandler twoPersonsDown ⟨"", loginBody "admin" "secret"⟩).1.status = 401
    ∧ (loginHandler twoPersonsDown ⟨"", loginBody "admin" "secret"⟩).1.body
        = some (Json.obj [("error", Json.str "Invalid username or password")])
    ∧ (getUsersHandler { twoPersons with faults := [some (Fault.next 1 "connection reset")] }
        ⟨"", ReqBody.undecodable⟩).1
        = ⟨200, some (Json.arr [userJSON ⟨1, "Ada", 30⟩])⟩ := by
  refine ⟨?_, ?_, ?_, ?_⟩ <;> rfl

/-- The sibling paths do what C2 says: whenever the CRUD function a handler
calls returns an error, whatever the error is, the answer is 500 with a message
fixed per handler; in `loginHandler` this holds for the listing that follows a
lookup that found a row. -/
theorem storage_error_500 (db : DB) (c : Request) :
    ((getUsers db).1.2 ≠ none →
      (getUsersHandler db c).1
        = ⟨500, some (Json.obj [("error", Json.str "Could not get users")])⟩)
    ∧ (∀ user, BodyParserUser c.body = some user →
      (createUser db user.Name user.Age).1.2 ≠ none →
      (createUserHandler db c).1
        = ⟨500, some (Json.obj [("error", Json.str "Could not create user")])⟩)
    ∧ (∀ id user, Atoi c.id = some id → BodyParserUser c.body = some user →
      (updateUser db { user with ID := id }).1 ≠ none →
      (updateUserHandler db c).1
        = ⟨500, some (Json.obj [("error", Json.str "Could not update user")])⟩)
    ∧ ((deleteUser db c.id).1 ≠ none →
      (deleteUserHandler db c).1
        = ⟨500, some (Json.obj [("error", Json.str "Could not delete user")])⟩)
    ∧ (∀ req, BodyParserLogin c.body = some req →
      (db.QueryRowRole req.Username req.Password).1 = none →
      (getUsers (db.QueryRowRole req.Username req.Password).2).1.2 ≠ none →
      (loginHandler db c).1
        = ⟨500, some (Json.obj [("error", Json.str "Could not get users")])⟩) := by
  refine ⟨?_, ?_, ?_, ?_, ?_⟩
  · intro h
    unfold getUsersHandler
    cases hg : getUsers db with
    | mk res db1 =>
      obtain ⟨users, err⟩ := res
      rw [hg] at h
      cases err with
      | none => exact absurd rfl h
      | some e => rfl
  · intro user hB h
    unfold createUserHandler
    rw [hB]
    simp only
    cases hg : createUser db user.Name user.Age with
    | mk res db1 =>
      obtain ⟨id, err⟩ := res
      rw [hg] at h
      cases err with
      | none => exact absurd rfl h
      | some e => rfl
  · intro id user hA hB h
    unfold updateUserHandler
    rw [hA, hB]
    simp only
    cases hg : updateUser db { user with ID := id } with
    | mk err db1 =>
      rw [hg] at h
      cases err with
      | none => exact absurd rfl h
      | some e => rfl
  · intro h
    unfold deleteUserHandler
    cases hg : deleteUser db c.id with
    | mk err db1 =>
      rw [hg] at h
      cases err with
      | none => exact absurd rfl h
      | some e => rfl
  · intro req hB hq h
    unfold loginHandler
    rw [hB]
    simp only
    cases hl : db.QueryRowRole req.Username req.Password with
    | mk err db1 =>
      rw [hl] at hq h
      simp only at hq h
      subst hq
      simp only
      cases hg : getUsers db1 with
      | mk res db2 =>
        obtain ⟨users, err⟩ := res
        rw [hg] at h
        cases err with
        | none => exact absurd rfl h
        | some e => rfl

/-! ## C3: bodies that do not decode -/

theorem decodeInt_eq_none (v : Json) (cur : Int) :
    decodeInt v cur = none ↔ v.fitsInt = false := by
  cases v <;> simp [decodeInt, Json.fitsInt]

theorem decodeString_eq_none (v : Json) (cur : String) :
    decodeString v cur = none ↔ v.fitsString = false := by
  cases v <;> simp [decodeString, Json.fitsString]

theorem setUserField_eq_none (u : User) (k : String) (v : Json) :
    setUserField u k v = none ↔ wrongTypeForUser (k, v) = true := by
  unfold setUserField wrongTypeForUser
  by_cases h1 : equalFold k "id" = true
  · simp [h1, decodeInt_eq_none]
  · by_cases h2 : equalFold k "name" = true
    · simp [h1, h2, decodeString_eq_none]
    · by_cases h3 : equalFold k "age" = true
      · simp [h1, h2, h3, decodeInt_eq_none]
      · simp [h1, h2, h3]

/-- Decoding an object into a `User` fails exactly when some member has a
value of the wrong type for the field it names. Members that are absent play
no part. -/
theorem decodeUserMembers_eq_none (ms : List (String × Json)) (u : User) :
    decodeUserMembers ms u = none ↔ ms.any wrongTypeForUser = true := by
  induction ms generalizing u with
  | nil => simp [decodeUserMembers]
  | cons m ms ih =>
    obtain ⟨k, v⟩ := m
    unfold decodeUserMembers
    cases hs : setUserField u k v with
    | none =>
      have := (setUserField_eq_none u k v).1 hs
      simp [this]
    | some u' =>
      have hne : ¬ wrongTypeForUser (k, v) = true := by
        intro hw
        rw [(setUserField_eq_none u k v).2 hw] at hs
        exact Option.noConfusion hs
      simp [ih u', hne]

/-- C3, refuted as stated. A `POST /users` body with no `age` and a
`PUT /users/:id` body with neither `name` nor `age` are both decoded, the
missing fields taking the zero value: the answer is 200, the INSERT and the
UPDATE are issued, and the store changes. -/
theorem missing_field_counterexample :
    (createUserHandler emptyStore ⟨"", ReqBody.json (Json.obj [("name", Json.str "Ada")])⟩).1.status
      = 200
    ∧ issued emptyStore
        (createUserHandler emptyStore ⟨"", ReqBody.json (Json.obj [("name", Json.str "Ada")])⟩).2
      = [Stmt.insertPerson "Ada" 0]
    ∧ (createUserHandler emptyStore ⟨"", ReqBody.json (Json.obj [("name", Json.str "Ada")])⟩).2.person
      = [⟨1, "Ada", 0⟩]
    ∧ (updateUserHandler twoPersons ⟨"2", ReqBody.json (Json.obj [])⟩).1.status = 200
    ∧ issued twoPersons (updateUserHandler twoPersons ⟨"2", ReqBody.json (Json.obj [])⟩).2
      = [Stmt.updatePerson "" 0 2]
    ∧ (updateUserHandler twoPersons ⟨"2", ReqBody.json (Json.obj [])⟩).2.person
      = [⟨1, "Ada", 30⟩, ⟨2, "", 0⟩] := by
  refine ⟨?_, ?_, ?_, ?_, ?_, ?_⟩ <;> decide

/-- C3, amended. For every state and every `POST /users` or `PUT /users/:id`
request whose body does not decode into a `User` (it cannot be parsed, it is
neither an object nor `null`, or a member has a value of the wrong type for the
field it names), the handler answers 400, issues no statement, and leaves the
database exactly as it was. A missing field is not a decoding failure. -/
theorem undecodable_body_bad_request (db : DB) (c : Request)
    (hbody : BodyParserUser c.body = none) :
    (createUserHandler db c).1.status = 400
    ∧ issued db (createUserHandler db c).2 = []
    ∧ (createUserHandler db c).2 = db
    ∧ (updateUserHandler db c).1.status = 400
    ∧ issued db (updateUserHandler db c).2 = []
    ∧ (updateUserHandler db c).2 = db := by
  have hc : createUserHandler db c = (statusJSON StatusBadRequest "Invalid request", db) := by
    unfold createUserHandler
    rw [hbody]
  have hu : (updateUserHandler db c).1.status = 400 ∧ (updateUserHandler db c).2 = db := by
    unfold updateUserHandler
    cases Atoi c.id with
    | none => exact ⟨rfl, rfl⟩
    | some id =>
      simp only
      rw [hbody]
      exact ⟨rfl, rfl⟩
  rw [hc, hu.2]
  exact ⟨rfl, issued_self db, rfl, hu.1, issued_self db, rfl⟩

/-- C3 amended, at a concrete input: an `age` given as a string is a value of
the wrong type. -/
theorem undecodable_body_bad_request_witness :
    (createUserHandler twoPersons
      ⟨"2", ReqBody.json (Json.obj [("name", Json.str "Eve"), ("age", Json.str "7")])⟩).1.status
      = 400
    ∧ issued twoPersons (createUserHandler twoPersons
      ⟨"2", ReqBody.json (Json.obj [("name", Json.str "Eve"), ("age", Json.str "7")])⟩).2 = []
    ∧ (createUserHandler twoPersons
      ⟨"2", ReqBody.json (Json.obj [("name", Json.str "Eve"), ("age", Json.str "7")])⟩).2
      = twoPersons
    ∧ (updateUserHandler twoPersons
      ⟨"2", ReqBody.json (Json.obj [("name", Json.str "Eve"), ("age", Json.str "7")])⟩).1.status
      = 400
    ∧ issued twoPersons (updateUserHandler twoPersons
      ⟨"2", ReqBody.json (Json.obj [("name", Json.str "Eve"), ("age", Json.str "7")])⟩).2 = []
    ∧ (updateUserHandler twoPersons
      ⟨"2", ReqBody.json (Json.obj [("name", Json.str "Eve"), ("age", Json.str "7")])⟩).2
      = twoPersons :=
  undecodable_body_bad_request twoPersons
    ⟨"2", ReqBody.json (Json.obj [("name", Json.str "Eve"), ("age", Json.str "7")])⟩ (by decide)

/-- A body that is a JSON object fails to decode into a `User` exactly when one
of its members has a value of the wrong type for the field it names. -/
theorem BodyParserUser_obj_eq_none (ms : List (String × Json)) :
    BodyParserUser (ReqBody.json (Json.obj ms)) = none ↔ ms.any wrongTypeForUser = true := by
  simp [BodyParserUser, unmarshalUser, decodeUserMembers_eq_none]

/-! ## C4: `PUT /users/:id` and the stored record -/

/-- After the update the first row found under the id, if the id was present,
is the new record. -/
theorem find_after_update (l : List User) (id : Int) (name : String) (age : Int)
    (h : ∃ u ∈ l, u.ID = id) :
    (l.map fun u => if u.ID = id then (⟨u.ID, name, age⟩ : User) else u).find?
      (fun u => decide (u.ID = id)) = some ⟨id, name, age⟩ := by
  induction l with
  | nil => simp at h
  | cons x xs ih =>
    by_cases hx : x.ID = id
    · simp [hx]
    · have hrest : ∃ u ∈ xs, u.ID = id := by
        obtain ⟨u, hu, hid⟩ := h
        rcases List.mem_cons.1 hu with rfl | hmem
        · exact absurd hid hx
        · exact ⟨u, hmem, hid⟩
      simp only [List.map_cons, hx, if_false, List.find?_cons, decide_False]
      exact ih hrest

/-- What a successful update does to the state. -/
theorem updateUser_ok (db : DB) (user : User) (h : (updateUser db user).1 = none) :
    (updateUser db user).2.person
      = db.person.map fun u => if u.ID = user.ID then ⟨u.ID, user.Name, user.Age⟩ else u := by
  unfold updateUser DB.ExecUpdate at h ⊢
  cases hf : db.nextFault with
  | some f => simp [DB.issue, hf] at h
  | none =>
    simp only [DB.issue, hf] at h ⊢
    split
    · rename_i hr
      simp [hr] at h
    · rfl

/-- C4, refuted as stated. On a store with no person, `PUT /users/1` with the
body `name: Ada, age: 30` is answered 200 with the person `(1, Ada, 30)`, and a
read of id 1 after the update finds no record. -/
theorem update_missing_id_counterexample :
    (updateUserHandler emptyStore ⟨"1", personBody "Ada" 30⟩).1.status = 200
    ∧ (updateUserHandler emptyStore ⟨"1", personBody "Ada" 30⟩).1.body
        = some (userJSON ⟨1, "Ada", 30⟩)
    ∧ (updateUserHandler emptyStore ⟨"1", personBody "Ada" 30⟩).2.find 1 = none := by
  refine ⟨?_, ?_, ?_⟩ <;> rfl

/-- C4, amended. For every state and every `PUT /users/:id` request that
`updateUserHandler` answers with 200 and whose id is the id of a person in the
store, the person in the response body (id from the path, name and age from
the request body, an id in the body being overridden) is the record found
under that id when the store is read after the update. -/
theorem update_response_is_stored (db : DB) (c : Request) (id : Int)
    (hok : (updateUserHandler db c).1.status = 200)
    (hid : Atoi c.id = some id)
    (hpresent : ∃ u ∈ db.person, u.ID = id) :
    ∃ parsed : User, BodyParserUser c.body = some parsed
      ∧ (updateUserHandler db c).1.body = some (userJSON ⟨id, parsed.Name, parsed.Age⟩)
      ∧ (updateUserHandler db c).2.find id = some ⟨id, parsed.Name, parsed.Age⟩ := by
  unfold updateUserHandler at hok ⊢
  rw [hid] at hok ⊢
  simp only at hok ⊢
  cases hB : BodyParserUser c.body with
  | none =>
    rw [hB] at hok
    simp [statusJSON, StatusBadRequest] at hok
  | some parsed =>
    rw [hB] at hok
    simp only at hok ⊢
    refine ⟨parsed, rfl, ?_⟩
    have hstore := updateUser_ok db { parsed with ID := id }
    cases hU : updateUser db { parsed with ID := id } with
    | mk err db1 =>
      rw [hU] at hok hstore
      cases err with
      | some e => simp [statusJSON, StatusInternalServerError] at hok
      | none =>
        simp only at hstore ⊢
        refine ⟨rfl, ?_⟩
        unfold DB.find
        rw [hstore trivial]
        exact find_after_update db.person id parsed.Name parsed.Age hpresent

/-- C4 amended, at a concrete input: person 2 of `twoPersons` is updated, the
id 99 of the body being overridden by the id of the path. -/
theorem update_response_is_stored_witness :
    ∃ parsed : User,
      BodyParserUser (ReqBody.json (Json.obj
        [("id", Json.int 99), ("name", Json.str "Eve"), ("age", Json.int 7)])) = some parsed
      ∧ (updateUserHandler twoPersons ⟨"2", ReqBody.json (Json.obj
          [("id", Json.int 99), ("name", Json.str "Eve"), ("age", Json.int 7)])⟩).1.body
        = some (userJSON ⟨2, parsed.Name, parsed.Age⟩)
      ∧ (updateUserHandler twoPersons ⟨"2", ReqBody.json (Json.obj
          [("id", Json.int 99), ("name", Json.str "Eve"), ("age", Json.int 7)])⟩).2.find 2
        = some ⟨2, parsed.Name, parsed.Age⟩ :=
  update_response_is_stored twoPersons
    ⟨"2", ReqBody.json (Json.obj [("id", Json.int 99), ("name", Json.str "Eve"), ("age", Json.int 7)])⟩
    2 (by decide) (by decide) ⟨⟨2, "Bob", 5⟩, by decide, rfl⟩

/-! ## C6: `POST /users` -/

/-- What a successful insert does: the id returned is the value the sequence
had, no person had that id, and the new row is added after the others. -/
theorem createUser_ok (db : DB) (name : String) (age : Int)
    (h : (createUser db name age).1.2 = none) :
    (createUser db name age).1.1 = db.seq
    ∧ (∀ u ∈ db.person, u.ID ≠ db.seq)
    ∧ (createUser db name age).2.person = db.person ++ [⟨db.seq, name, age⟩] := by
  unfold createUser DB.QueryRowInsert at h ⊢
  cases hf : db.nextFault with
  | some f => simp [DB.issue, hf] at h
  | none =>
    simp only [DB.issue, hf] at h ⊢
    split
    · rename_i hr
      simp [hr] at h
    · split
      · rename_i hr hd
        simp [hr, hd] at h
      · rename_i hr hd
        refine ⟨rfl, ?_, rfl⟩
        intro u hu hid
        apply hd
        simp only [List.any_eq_true, decide_eq_true_eq]
        exact ⟨u, hu, hid⟩

/-- C6, the code at the failing input. `POST /users` with the body
`name: Eve, age: 7` on `listingCutAfter 2`: the insert succeeds, the answer is
200 with the person `(3, Eve, 7)`, no person had the id 3 before, and the
record is stored. The next `getUsers`, run on the very state the handler left,
is cut short after two rows by an error that only `rows.Err` would show, which
the loop never reads: it returns a nil error and the list `Ada, Bob`, in which
no record has the id 3. -/
theorem create_then_cut_listing :
    (createUser (listingCutAfter 2) "Eve" 7).1 = (3, none)
    ∧ (createUserHandler (listingCutAfter 2) ⟨"", personBody "Eve" 7⟩).1.status = 200
    ∧ (createUserHandler (listingCutAfter 2) ⟨"", personBody "Eve" 7⟩).1.body
        = some (userJSON ⟨3, "Eve", 7⟩)
    ∧ (∀ u ∈ (listingCutAfter 2).person, u.ID ≠ 3)
    ∧ (createUserHandler (listingCutAfter 2) ⟨"", personBody "Eve" 7⟩).2.person
        = [⟨1, "Ada", 30⟩, ⟨2, "Bob", 5⟩, ⟨3, "Eve", 7⟩]
    ∧ (getUsers (createUserHandler (listingCutAfter 2) ⟨"", personBody "Eve" 7⟩).2).1
        = (Slice.mk [⟨1, "Ada", 30⟩, ⟨2, "Bob", 5⟩], none)
    ∧ (∀ u ∈ (getUsers
          (createUserHandler (listingCutAfter 2) ⟨"", personBody "Eve" 7⟩).2).1.1.toList,
        u.ID ≠ 3) := by
  refine ⟨?_, ?_, rfl, ?_, ?_, ?_, ?_⟩ <;> decide

/-- The rest of the create-then-list property holds. For every state and every
`POST /users` request whose body decodes to a name and an age and whose insert
succeeds, `createUserHandler` answers 200 with the person made of the id the
insert returned (an id given in the body is overridden) and the name and age of
the request; no person of the store had that id before the request; and every
later listing that no fault meets, on a store with the person table the request
left, reports no error and contains the record with that id, name and age. -/
theorem create_then_list (db : DB) (c : Request) (user : User)
    (hdecode : BodyParserUser c.body = some user)
    (hinsert : (createUser db user.Name user.Age).1.2 = none) :
    (createUserHandler db c).1.status = 200
    ∧ (createUserHandler db c).1.body
        = some (userJSON ⟨(createUser db user.Name user.Age).1.1, user.Name, user.Age⟩)
    ∧ (∀ u ∈ db.person, u.ID ≠ (createUser db user.Name user.Age).1.1)
    ∧ (∀ db2 : DB, db2.person = (createUserHandler db c).2.person → db2.nextFault = none →
        (getUsers db2).1.2 = none
        ∧ (⟨(createUser db user.Name user.Age).1.1, user.Name, user.Age⟩ : User)
            ∈ (getUsers db2).1.1.toList) := by
  obtain ⟨hidv, hfresh, hstore⟩ := createUser_ok db user.Name user.Age hinsert
  have hrun : createUserHandler db c
      = (sendJSON (userJSON ⟨(createUser db user.Name user.Age).1.1, user.Name, user.Age⟩),
          (createUser db user.Name user.Age).2) := by
    unfold createUserHandler
    rw [hdecode]
    simp only
    cases hc : createUser db user.Name user.Age with
    | mk res db1 =>
      obtain ⟨id, err⟩ := res
      rw [hc] at hinsert
      simp only at hinsert
      subst hinsert
      rfl
  rw [hrun]
  refine ⟨rfl, rfl, ?_, ?_⟩
  · rw [hidv]
    exact hfresh
  · intro db2 hp hnf
    rw [getUsers_no_fault db2 hnf]
    refine ⟨rfl, ?_⟩
    simp only
    rw [foldl_append_toList, hp, hstore, hidv]
    simp

/-- The create-then-list property at a concrete input: `POST /users` on
`twoPersons`, whose sequence is at 3, with a body that also carries an id. -/
theorem create_then_list_witness :
    (createUserHandler twoPersons ⟨"", ReqBody.json (Json.obj
        [("id", Json.int 99), ("name", Json.str "Eve"), ("age", Json.int 7)])⟩).1.status = 200
    ∧ (createUserHandler twoPersons ⟨"", ReqBody.json (Json.obj
        [("id", Json.int 99), ("name", Json.str "Eve"), ("age", Json.int 7)])⟩).1.body
        = some (userJSON ⟨(createUser twoPersons "Eve" 7).1.1, "Eve", 7⟩)
    ∧ (∀ u ∈ twoPersons.person, u.ID ≠ (createUser twoPersons "Eve" 7).1.1)
    ∧ (∀ db2 : DB, db2.person = (createUserHandler twoPersons ⟨"", ReqBody.json (Json.obj
          [("id", Json.int 99), ("name", Json.str "Eve"), ("age", Json.int 7)])⟩).2.person →
        db2.nextFault = none →
        (getUsers db2).1.2 = none
        ∧ (⟨(createUser twoPersons "Eve" 7).1.1, "Eve", 7⟩ : User) ∈ (getUsers db2).1.1.toList) :=
  create_then_list twoPersons
    ⟨"", ReqBody.json (Json.obj [("id", Json.int 99), ("name", Json.str "Eve"), ("age", Json.int 7)])⟩
    ⟨99, "Eve", 7⟩ (by decide) (by decide)

/-! ## C8: `DELETE /users/:id` -/

/-- What the delete does when its statement reports no error and the id
matches no person: nothing. -/
theorem deleteUser_no_match (db : DB) (id : String) (n : Int)
    (hint : integerIn id = some n) (hno : ∀ u ∈ db.person, u.ID ≠ n)
    (hf : db.nextFault = none) :
    (deleteUser db id).1 = none
    ∧ (deleteUser db id).2.person = db.person
    ∧ (deleteUser db id).2.role = db.role := by
  unfold deleteUser DB.ExecDelete
  simp only [DB.issue, hf, hint]
  refine ⟨trivial, ?_, trivial⟩
  simp only [List.filter_eq_self, decide_eq_true_eq]
  exact hno

/-- C8, refuted as stated. The id `abc` matches no person of `twoPersons`, yet
the server refuses the text as an integer and the answer is 500; and the id
`7`, which matches no person either, is answered 500 when the statement fails
in the driver. -/
theorem delete_unmatched_id_counterexample :
    (∀ u ∈ twoPersons.person, integerIn "abc" ≠ some u.ID)
    ∧ (deleteUserHandler twoPersons ⟨"abc", ReqBody.undecodable⟩).1.status = 500
    ∧ (∀ u ∈ twoPersonsDown.person, integerIn "7" ≠ some u.ID)
    ∧ (deleteUserHandler twoPersonsDown ⟨"7", ReqBody.undecodable⟩).1.status = 500 := by
  refine ⟨?_, ?_, ?_, ?_⟩ <;> decide

/-- C8, amended. For every state and every id string, `deleteUserHandler`
passes the id to the delete statement as it is, answers 204 with an empty body
exactly when the statement reports no error, and 500 with
`error: Could not delete user` otherwise; and for every id that reads as an
integer matching no person, when the statement does not fail in the driver,
`deleteUser` returns no error, the answer is 204 and both tables are
unchanged. -/
theorem delete_status (db : DB) (c : Request) :
    issued db (deleteUserHandler db c).2 = [Stmt.deletePerson c.id]
    ∧ ((deleteUserHandler db c).1 = ⟨204, none⟩ ↔ (deleteUser db c.id).1 = none)
    ∧ ((deleteUser db c.id).1 ≠ none →
        (deleteUserHandler db c).1
          = ⟨500, some (Json.obj [("error", Json.str "Could not delete user")])⟩)
    ∧ (∀ n : Int, integerIn c.id = some n → (∀ u ∈ db.person, u.ID ≠ n) →
        db.nextFault = none →
        (deleteUser db c.id).1 = none
        ∧ (deleteUserHandler db c).1 = ⟨204, none⟩
        ∧ (deleteUserHandler db c).2.person = db.person
        ∧ (deleteUserHandler db c).2.role = db.role) := by
  have hrun : deleteUserHandler db c
      = (match (deleteUser db c.id).1 with
          | some _ => statusJSON StatusInternalServerError "Could not delete user"
          | none => SendStatus StatusNoContent, (deleteUser db c.id).2) := by
    unfold deleteUserHandler
    cases hd : deleteUser db c.id with
    | mk err db1 => cases err <;> rfl
  have hlog := deleteUser_log db c.id
  refine ⟨?_, ?_, ?_, ?_⟩
  · rw [hrun]
    exact issued_append db _ _ hlog
  · rw [hrun]
    cases hd : (deleteUser db c.id).1 with
    | none => simp [SendStatus, StatusNoContent]
    | some e => simp [statusJSON, StatusInternalServerError]
  · intro hne
    rw [hrun]
    cases hd : (deleteUser db c.id).1 with
    | none => exact absurd hd hne
    | some e => rfl
  · intro n hint hno hf
    obtain ⟨herr, hp, hr⟩ := deleteUser_no_match db c.id n hint hno hf
    rw [hrun, herr]
    exact ⟨rfl, rfl, hp, hr⟩

/-- C8 amended, at a concrete input: the id `7` matches no person of
`twoPersons`. -/
theorem delete_status_witness :
    (deleteUser twoPersons "7").1 = none
    ∧ (deleteUserHandler twoPersons ⟨"7", ReqBody.undecodable⟩).1 = ⟨204, none⟩
    ∧ (deleteUserHandler twoPersons ⟨"7", ReqBody.undecodable⟩).2.person = twoPersons.person
    ∧ (deleteUserHandler twoPersons ⟨"7", ReqBody.undecodable⟩).2.role = twoPersons.role :=
  (delete_status twoPersons ⟨"7", ReqBody.undecodable⟩).2.2.2 7 (by decide) (by decide) rfl

/-! ## C9: what a successful login returns -/

/-- C9, the code at the failing input. `POST /login` with the stored pair
`admin`, `secret` on `listingCutAfter 1`: the credential lookup finds the row,
and the listing that follows is cut short after one row by an error that only
`rows.Err` would show, which the loop never reads, so `getUsers` returns a nil
error: the answer is 200 with the list `Ada`. `GET /users` on the same state
is answered 200 with the entire person list `Ada, Bob`: the two bodies
differ. -/
theorem login_cut_listing :
    ((listingCutAfter 1).QueryRowRole "admin" "secret").1 = none
    ∧ (getUsers ((listingCutAfter 1).QueryRowRole "admin" "secret").2).1.2 = none
    ∧ (loginHandler (listingCutAfter 1) ⟨"", loginBody "admin" "secret"⟩).1.status = 200
    ∧ (loginHandler (listingCutAfter 1) ⟨"", loginBody "admin" "secret"⟩).1.body
        = some (Json.arr [userJSON ⟨1, "Ada", 30⟩])
    ∧ (getUsersHandler (listingCutAfter 1) ⟨"", ReqBody.undecodable⟩).1.status = 200
    ∧ (getUsersHandler (listingCutAfter 1) ⟨"", ReqBody.undecodable⟩).1.body
        = some (Json.arr [userJSON ⟨1, "Ada", 30⟩, userJSON ⟨2, "Bob", 5⟩])
    ∧ (loginHandler (listingCutAfter 1) ⟨"", loginBody "admin" "secret"⟩).1.body
        ≠ (getUsersHandler (listingCutAfter 1) ⟨"", ReqBody.undecodable⟩).1.body := by
  have hl : (loginHandler (listingCutAfter 1) ⟨"", loginBody "admin" "secret"⟩).1.body
      = some (Json.arr [userJSON ⟨1, "Ada", 30⟩]) := rfl
  have hg : (getUsersHandler (listingCutAfter 1) ⟨"", ReqBody.undecodable⟩).1.body
      = some (Json.arr [userJSON ⟨1, "Ada", 30⟩, userJSON ⟨2, "Bob", 5⟩]) := rfl
  refine ⟨rfl, rfl, rfl, hl, rfl, hg, ?_⟩
  rw [hl, hg]
  simp

/-- The rest of the login property holds under equal driver behaviour. For
every state and every `POST /login` request whose body decodes,
whose credential lookup finds a row and whose listing reports no error,
`loginHandler` answers 200, and its whole response is the response of
`GET /users` on every state with the same person table whose listing meets the
same driver behaviour; so it is the same for every other username and password
whose lookup finds a row; and when no fault meets the listing, its body is the
encoding of the entire person table and its response is that of `GET /users`
on the very same state. -/
theorem login_returns_listing (db : DB) (c : Request) (req : LoginRequest)
    (hdecode : BodyParserLogin c.body = some req)
    (hfound : (db.QueryRowRole req.Username req.Password).1 = none)
    (hlist : (getUsers (db.QueryRowRole req.Username req.Password).2).1.2 = none) :
    (loginHandler db c).1.status = 200
    ∧ (∀ (db' : DB) (c' : Request), db'.person = db.person →
        db'.nextFault = (db.QueryRowRole req.Username req.Password).2.nextFault →
        (getUsersHandler db' c').1 = (loginHandler db c).1)
    ∧ (∀ (c2 : Request) (req2 : LoginRequest), BodyParserLogin c2.body = some req2 →
        (db.QueryRowRole req2.Username req2.Password).1 = none →
        (loginHandler db c2).1 = (loginHandler db c).1)
    ∧ ((db.QueryRowRole req.Username req.Password).2.nextFault = none →
        (loginHandler db c).1.body
          = some (usersJSON (db.person.foldl Slice.append Slice.nil))
        ∧ ∀ c' : Request, (getUsersHandler db c').1 = (loginHandler db c).1) := by
  have hlogin : ∀ (c2 : Request) (req2 : LoginRequest), BodyParserLogin c2.body = some req2 →
      (db.QueryRowRole req2.Username req2.Password).1 = none →
      (loginHandler db c2).1
        = (match (getUsers (db.QueryRowRole req2.Username req2.Password).2).1 with
            | (_, some _) => statusJSON StatusInternalServerError "Could not get users"
            | (users, none) => sendJSON (usersJSON users)) := by
    intro c2 req2 hd hf
    unfold loginHandler
    rw [hd]
    simp only
    cases hq : db.QueryRowRole req2.Username req2.Password with
    | mk err db1 =>
      rw [hq] at hf
      simp only at hf
      subst hf
      simp only
      cases hg : getUsers db1 with
      | mk res db2 =>
        obtain ⟨users, err⟩ := res
        cases err <;> rfl
  have hget : ∀ (db' : DB) (c' : Request), (getUsersHandler db' c').1
      = (match (getUsers db').1 with
          | (_, some _) => statusJSON StatusInternalServerError "Could not get users"
          | (users, none) => sendJSON (usersJSON users)) := by
    intro db' c'
    unfold getUsersHandler
    cases hg : getUsers db' with
    | mk res db2 =>
      obtain ⟨users, err⟩ := res
      cases err <;> rfl
  obtain ⟨-, hperson, -, hfaults⟩ := QueryRowRole_frame db req.Username req.Password
  refine ⟨?_, ?_, ?_, ?_⟩
  · rw [hlogin c req hdecode hfound]
    cases hg : (getUsers (db.QueryRowRole req.Username req.Password).2).1 with
    | mk users err =>
      rw [hg] at hlist
      simp only at hlist
      subst hlist
      rfl
  · intro db' c' hp hnf
    rw [hlogin c req hdecode hfound, hget db' c',
      getUsers_congr (db.QueryRowRole req.Username req.Password).2 db' (by rw [hp, hperson]) hnf]
  · intro c2 req2 hd2 hf2
    obtain ⟨-, hperson2, -, hfaults2⟩ := QueryRowRole_frame db req2.Username req2.Password
    rw [hlogin c req hdecode hfound, hlogin c2 req2 hd2 hf2,
      getUsers_congr (db.QueryRowRole req.Username req.Password).2
        (db.QueryRowRole req2.Username req2.Password).2 (by rw [hperson, hperson2])
        (by unfold DB.nextFault; rw [hfaults, hfaults2])]
  · intro hnf
    have hdb : db.nextFault = none := ((QueryRowRole_found_iff db _ _).1 hfound).1
    constructor
    · rw [hlogin c req hdecode hfound, getUsers_no_fault _ hnf, hperson]
      rfl
    · intro c'
      rw [hlogin c req hdecode hfound, hget db c',
        getUsers_congr (db.QueryRowRole req.Username req.Password).2 db hperson.symm
          (by rw [hdb, hnf])]

/-- The login property at a concrete input: a login on `twoPersons` with the
stored pair, compared with `GET /users` on the same state. -/
theorem login_returns_listing_witness :
    (loginHandler twoPersons ⟨"", loginBody "admin" "secret"⟩).1.status = 200
    ∧ (getUsersHandler twoPersons ⟨"", ReqBody.undecodable⟩).1
        = (loginHandler twoPersons ⟨"", loginBody "admin" "secret"⟩).1
    ∧ (loginHandler twoPersons ⟨"", loginBody "admin" "secret"⟩).1.body
        = some (Json.arr [userJSON ⟨1, "Ada", 30⟩, userJSON ⟨2, "Bob", 5⟩]) :=
  ⟨(login_returns_listing twoPersons ⟨"", loginBody "admin" "secret"⟩ ⟨"admin", "secret"⟩
      (by decide) (by decide) (by decide)).1,
   (login_returns_listing twoPersons ⟨"", loginBody "admin" "secret"⟩ ⟨"admin", "secret"⟩
      (by decide) (by decide) (by decide)).2.1 twoPersons ⟨"", ReqBody.undecodable⟩ rfl rfl,
   ((login_returns_listing twoPersons ⟨"", loginBody "admin" "secret"⟩ ⟨"admin", "secret"⟩
      (by decide) (by decide) (by decide)).2.2.2 rfl).1⟩

end Handler
